import Mathlib

/-!
Verification development for the ticktick-mcp repository.

This file gives a shallow embedding, in Lean 4, of the response-shaping,
filtering, session-cache and batch-operation logic of the repository
(`src/ticktick_sdk/server.py`, `src/ticktick_sdk/fast_cli.py`,
`src/ticktick_sdk/tools/formatting.py`, `src/ticktick_sdk/tools/inputs.py`),
and proves or refutes the specification claims about that logic.

Modelling conventions:
* Python strings are Lean `String`s; slicing `s[:n]` is `List.take n` on
  `s.data` (both count code points).
* Python `datetime` values are modelled by `PyDateTime`: a wall-clock
  reading in seconds (`wall`) together with an optional fixed UTC offset
  (`tzOff`).  Comparison of two aware datetimes compares absolute instants
  (`wall - tzOff`); comparison of two naive datetimes compares wall values.
  The running clock is an environment parameter: `nowAbs` is the absolute
  current instant and `localOff` the local zone offset, so `datetime.now()`
  reads `nowAbs + localOff` and `datetime.now(tz)` reads `nowAbs + off`.
* Python exceptions are `PyErr`: the dynamic class name (`typeName`, what
  `type(e).__name__` yields) plus the message (`str(e)`).
* Fallible upstream calls are environment functions returning `Except`.
-/

namespace TickTick

/-! ## Python-style string primitives -/

/-- Does `sub` occur as a prefix of `l`?  Mirrors Python substring search. -/
def listHasPre (sub l : List Char) : Bool :=
  sub.isPrefixOf l

/-- Does `sub` occur contiguously anywhere inside `l` (Python `sub in s`)? -/
def listContains (sub : List Char) : List Char → Bool
  | [] => sub.isEmpty
  | c :: rest => listHasPre sub (c :: rest) || listContains sub rest

/-- Python `sub in s` on strings. -/
def strContains (s sub : String) : Bool :=
  listContains sub.data s.data

/-- Does `sub` match inside `s` starting at position `p`? -/
def matchSubAt (s sub : List Char) (p : Nat) : Bool :=
  ((s.drop p).take sub.length) == sub

/-- Greatest position `≤ n` at which `sub` matches in `s`, if any. -/
def searchDown (s sub : List Char) : Nat → Option Nat
  | 0 => if matchSubAt s sub 0 then some 0 else none
  | p + 1 => if matchSubAt s sub (p + 1) then some (p + 1) else searchDown s sub p

/-- Python `s.rfind(sub, 0, stop)`, returning `none` for `-1`: the greatest
index `p` with `p + len sub ≤ min stop (len s)` at which `sub` occurs. -/
def pyRfind (s sub : String) (stop : Nat) : Option Nat :=
  let m := min stop s.length
  if sub.length ≤ m then searchDown s.data sub.data (m - sub.length) else none

/-- Python slice `l[:n]` for a possibly negative bound. -/
def pySliceTo (n : Int) (l : List α) : List α :=
  if n < 0 then l.take ((l.length + n).toNat) else l.take n.toNat

/-- Python truthiness of an optional string (`None` and `""` are falsy). -/
def truthyStr (o : Option String) : Bool :=
  match o with
  | none => false
  | some s => !(s == "")

/-- Python truthiness of an optional integer (`None` and `0` are falsy). -/
def truthyInt (o : Option Int) : Bool :=
  match o with
  | none => false
  | some n => !(n == 0)

/-- Python truthiness of an optional bool (`None` and `False` are falsy). -/
def truthyBool (o : Option Bool) : Bool :=
  o == some true

/-- Python truthiness of an optional list (`None` and `[]` are falsy). -/
def truthyList (o : Option (List α)) : Bool :=
  match o with
  | none => false
  | some l => !l.isEmpty

/-- Python `str[:10]`, the ISO date portion of a stringified timestamp. -/
def pyTake10 (s : String) : String :=
  String.mk (s.data.take 10)

/-- ASCII case folding of one character (the fragment of Python
`str.lower()` exercised by tag names). -/
def pyLowerChar (c : Char) : Char :=
  if 'A' ≤ c && c ≤ 'Z' then Char.ofNat (c.toNat + 32) else c

/-- Python `s.lower()` (restricted to ASCII case folding). -/
def pyLower (s : String) : String :=
  String.mk (s.data.map pyLowerChar)

/-- Python lexicographic `<` on strings, by code point, a shorter strict
prefix comparing below. -/
def pyStrLtList : List Char → List Char → Bool
  | [], [] => false
  | [], _ :: _ => true
  | _ :: _, [] => false
  | a :: as, b :: bs =>
    if a < b then true else if b < a then false else pyStrLtList as bs

/-- Python `a < b` on strings. -/
def pyStrLt (a b : String) : Bool :=
  pyStrLtList a.data b.data

/-- An ASCII whitespace character as stripped by Python `str.strip()`. -/
def isPyWs (c : Char) : Bool :=
  c == ' ' || c == '\t' || c == '\n' || c == '\r' || c == '\x0b' || c == '\x0c'

/-- Python `s.strip()`: drop whitespace from both ends. -/
def pyStrip (s : String) : String :=
  String.mk (((s.data.dropWhile isPyWs).reverse.dropWhile isPyWs).reverse)

/-! ## Exceptions and the error boundary

`PyErr` models a raised Python exception: `typeName` is `type(e).__name__`
and `msg` is `str(e)`.  The exception classes of the package
(`TickTickAuthenticationError`, `TickTickNotFoundError`,
`TickTickValidationError`, ... declared in the package root) are values of
this type; Python built-ins such as `ValueError` are too. -/

structure PyErr where
  typeName : String
  msg : String
deriving DecidableEq, Repr

/-- `tools/formatting.py`, `error_message`: format an error with an optional
suggestion (appended only when truthy). -/
def error_message (err : String) (suggestion : Option String) : String :=
  let m := "**Error**: " ++ err
  match suggestion with
  | none => m
  | some s => if s == "" then m else m ++ "\n\n*Suggestion*: " ++ s

/-- `tools/formatting.py`, `success_message`. -/
def success_message (m : String) : String :=
  "**Success**: " ++ m

/-- `server.py`, `handle_error`: translate an exception into an actionable
error string, dispatching on substrings of the dynamic type name. -/
def handle_error (e : PyErr) : String :=
  if strContains e.typeName "Authentication" then
    error_message "Authentication failed" (some "Check TICKTICK_* environment variables.")
  else if strContains e.typeName "NotFound" then
    error_message ("Not found: " ++ e.msg) (some "Verify the ID exists.")
  else if strContains e.typeName "Validation" then
    error_message ("Invalid input: " ++ e.msg) (some "Check parameters.")
  else
    error_message ("Error: " ++ e.msg) (some ("Type: " ++ e.typeName))

/-- The `try/except` boundary of every `@mcp.tool` handler in `server.py`:
the body either returns a string or raises, and a raised exception is
translated by `handle_error` instead of propagating. -/
def runToolHandler (body : Except PyErr String) : String :=
  match body with
  | .ok s => s
  | .error e => handle_error e

/-! ### CLI error surface (`fast_cli.py`, `error` and `main`) -/

/-- Lower-case hex digit of `n % 16`, as emitted by `json.dumps` unicode
escapes. -/
def hexDigitChar (n : Nat) : Char :=
  match n % 16 with
  | 0 => '0' | 1 => '1' | 2 => '2' | 3 => '3' | 4 => '4'
  | 5 => '5' | 6 => '6' | 7 => '7' | 8 => '8' | 9 => '9'
  | 10 => 'a' | 11 => 'b' | 12 => 'c' | 13 => 'd' | 14 => 'e'
  | _ => 'f'

/-- A `\uXXXX` escape for code unit `n` (4 lower-case hex digits). -/
def uEscape (n : Nat) : List Char :=
  ['\\', 'u', hexDigitChar (n / 4096), hexDigitChar (n / 256),
   hexDigitChar (n / 16), hexDigitChar n]

/-- How `json.dumps` (with its default `ensure_ascii=True`) emits one
character of a string value. -/
def pyJsonEscChar (c : Char) : List Char :=
  if c == '"' then ['\\', '"']
  else if c == '\\' then ['\\', '\\']
  else if c == '\n' then ['\\', 'n']
  else if c == '\r' then ['\\', 'r']
  else if c == '\t' then ['\\', 't']
  else if c == '\x08' then ['\\', 'b']
  else if c == '\x0c' then ['\\', 'f']
  else if c.toNat < 32 || 128 ≤ c.toNat then
    if c.toNat < 65536 then uEscape c.toNat
    else uEscape (55296 + (c.toNat - 65536) / 1024) ++ uEscape (56320 + (c.toNat - 65536) % 1024)
  else [c]

/-- `json.dumps` of a Python string. -/
def pyJsonStr (s : String) : String :=
  String.mk ('"' :: (s.data.flatMap pyJsonEscChar ++ ['"']))

/-- `fast_cli.py`, `error`: the single line printed for a CLI failure,
`json.dumps` of the one-entry error object. -/
def cli_error_line (msg : String) : String :=
  "\x7b\"error\": " ++ pyJsonStr msg ++ "\x7d"

/-- Outcome of `fast_cli.py`, `main`: the dispatched command either succeeds
(exit code 0, no error line) or raises, in which case `error(str(e))` prints
the JSON error line and the process exits with code 1. -/
def cli_main_result (run : Except PyErr Unit) : Option String × Int :=
  match run with
  | .ok _ => (none, 0)
  | .error e => (some (cli_error_line e.msg), 1)

/-! ## Size governance (`server.py`, `truncate_response`) -/

/-- `server.py`: the fixed character budget. -/
def CHARACTER_LIMIT : Nat := 25000

/-- The truncation notice appended by `truncate_response`
(`f"\n\n---\n⚠️ **Response truncated** (exceeded 25,000 characters)"`). -/
def truncMsg : String :=
  "\n\n---\n⚠️ **Response truncated** (exceeded 25,000 characters)"

/-- The cut position chosen by `truncate_response` for an oversized string:
last paragraph break before the margin, else last line break, else the
margin itself. -/
def truncatePoint (result : String) : Nat :=
  let truncAt := CHARACTER_LIMIT - 500
  match pyRfind result "\n\n" truncAt with
  | some p => p
  | none =>
    match pyRfind result "\n" truncAt with
    | some p => p
    | none => truncAt

/-- `server.py`, `truncate_response` (the `items_count` arguments are unused
by the source beyond the signature). -/
def truncate_response (result : String) : String :=
  if result.length ≤ CHARACTER_LIMIT then result
  else String.mk (result.data.take (truncatePoint result)) ++ truncMsg

/-! ## Datetimes and the clock -/

/-- A Python `datetime`: `wall` is the wall-clock reading (seconds), `tzOff`
the fixed UTC offset (seconds) of an aware value, `none` for a naive one.
The absolute instant of an aware value is `wall - tzOff`. -/
structure PyDateTime where
  wall : Int
  tzOff : Option Int
deriving DecidableEq, Repr

/-- The calendar day of a datetime in its own wall clock (`dt.date()`). -/
def PyDateTime.day (d : PyDateTime) : Int :=
  d.wall.fdiv 86400

/-- The ambient clock: absolute current instant and the local zone offset,
so `datetime.now()` reads wall `nowAbs + localOff` and `date.today()` is its
day. -/
structure Clock where
  nowAbs : Int
  localOff : Int
deriving Repr

/-- Local calendar day of `date.today()` /
`datetime.now().replace(hour=0, ...)`'s date. -/
def Clock.todayDay (k : Clock) : Int :=
  (k.nowAbs + k.localOff).fdiv 86400

/-! ## Task records

The canonical models (`ticktick_sdk.models`) are not under `src/`; the
structures below are the attribute records those models present to the code
under verification, holding exactly the fields that code reads.
`created_time`/`modified_time` appear only via `str(...)` in the code, so
they are carried in stringified form. -/

/-- A task as read by `fast_cli.py` (`CachedAPI`). -/
structure CliTask where
  id : String := ""
  project_id : String := ""
  title : Option String := none
  content : Option String := none
  status : Int := 0
  priority : Int := 0
  tags : Option (List String) := none
  due_date : Option PyDateTime := none
  created_time : Option String := none
  modified_time : Option String := none
  column_id : Option String := none
  parent_id : Option String := none
deriving DecidableEq, Repr

/-- A task as read by the `status == "active"` listing branch of
`server.py`, `ticktick_tasks`. -/
structure SrvTask where
  id : String := ""
  project_id : String := ""
  column_id : Option String := none
  tags : List String := []
  priority : Int := 0
  due_date : Option PyDateTime := none
  is_completed : Bool := false
deriving DecidableEq, Repr

/-- Modelled from the spec: the `TaskStatus` constants live in
`ticktick_sdk.constants`, which is not under `src/`.  The numeric values
follow `tools/formatting.py`, `status_label` (0 Active, 2 Completed,
-1 Abandoned). -/
def TaskStatus_ACTIVE : Int := 0

/-- Modelled from the spec: completed status value (see `TaskStatus_ACTIVE`). -/
def TaskStatus_COMPLETED : Int := 2

/-- Modelled from the spec: abandoned status value (see `TaskStatus_ACTIVE`). -/
def TaskStatus_ABANDONED : Int := -1

/-! ## CLI task listing (`fast_cli.py`, `CachedAPI.list_tasks`) -/

/-- The keyword arguments of `CachedAPI.list_tasks`, all defaulting to
`None`. -/
structure CliListParams where
  project_id : Option String := none
  column_id : Option String := none
  tag : Option String := none
  priority : Option Int := none
  due_today : Option Bool := none
  overdue : Option Bool := none
  from_date : Option String := none
  to_date : Option String := none
  days : Option Int := none
  limit : Option Int := none
deriving Repr

/-- The environment of a `list_tasks` call: the clock and the
`strftime("%Y-%m-%d")` rendering of a local midnight datetime for a given
calendar day (used only for the `days` lookback fallback). -/
structure CliListEnv where
  clock : Clock
  dateStrOfDay : Int → String

/-- The `from_date` actually used: when `days` is truthy and `from_date` is
falsy, `list_tasks` substitutes `(today - timedelta(days=days)).strftime`. -/
def cliEffFromDate (env : CliListEnv) (p : CliListParams) : Option String :=
  if truthyInt p.days && !truthyStr p.from_date then
    some (env.dateStrOfDay (env.clock.todayDay - p.days.getD 0))
  else p.from_date

/-- The per-task keep decision of the `for t in ...` loop of
`CachedAPI.list_tasks`: each `continue` becomes a conjunct. -/
def cliKeep (env : CliListEnv) (p : CliListParams) (fromD : Option String)
    (t : CliTask) : Bool :=
  (t.status == TaskStatus_ACTIVE) &&
  (!truthyStr p.project_id || t.project_id == p.project_id.getD "") &&
  (!truthyStr p.column_id || t.column_id == some (p.column_id.getD "")) &&
  (!truthyStr p.tag || (t.tags.getD []).contains (p.tag.getD "")) &&
  (p.priority.elim true (fun v => t.priority == v)) &&
  (!truthyBool p.due_today ||
    (match t.due_date with
     | none => false
     | some d => d.day == env.clock.todayDay)) &&
  (!truthyBool p.overdue ||
    (match t.due_date with
     | none => false
     | some d =>
       match d.tzOff with
       | some off => decide (d.wall < env.clock.nowAbs + off)
       | none => decide (d.wall < env.clock.nowAbs + env.clock.localOff))) &&
  (!truthyStr fromD ||
    (match t.created_time.or t.modified_time with
     | none => true
     | some ts => !pyStrLt (pyTake10 ts) (fromD.getD ""))) &&
  (!truthyStr p.to_date ||
    (match t.created_time.or t.modified_time with
     | none => true
     | some ts => !pyStrLt (p.to_date.getD "") (pyTake10 ts)))

/-- The filtered task list of `CachedAPI.list_tasks` before the final
`tasks[:limit]` head-truncation. -/
def cliListTasksFiltered (env : CliListEnv) (p : CliListParams)
    (syncTasks : List CliTask) : List CliTask :=
  syncTasks.filter (cliKeep env p (cliEffFromDate env p))

/-- `CachedAPI.list_tasks`: filter, then `if limit: tasks = tasks[:limit]`. -/
def cliListTasks (env : CliListEnv) (p : CliListParams)
    (syncTasks : List CliTask) : List CliTask :=
  let tasks := cliListTasksFiltered env p syncTasks
  if truthyInt p.limit then pySliceTo (p.limit.getD 0) tasks else tasks

/-! ## Server task listing (`server.py`, `ticktick_tasks`, `list` action,
`status == "active"` branch) -/

/-- The filter-relevant fields of a validated `TasksInput` with
`action = "list"`. -/
structure SrvListParams where
  project_id : Option String := none
  column_id : Option String := none
  tag : Option String := none
  priority : Option String := none
  due_today : Option Bool := none
  overdue : Option Bool := none
  limit : Option Int := none
deriving Repr

/-- `pmap` of the priority filter in `server.py`. -/
def srvPriorityMap (s : String) : Int :=
  if s == "none" then 0
  else if s == "low" then 1
  else if s == "medium" then 3
  else if s == "high" then 5
  else 0

/-- The successive list comprehensions of the `status == "active"` branch
(lines 214-229 of `server.py`), before the final `tasks[:limit]`. -/
def srvActiveFiltered (k : Clock) (p : SrvListParams)
    (tasks : List SrvTask) : List SrvTask :=
  let t1 := if truthyStr p.project_id then
      tasks.filter (fun t => t.project_id == p.project_id.getD "") else tasks
  let t2 := if truthyStr p.column_id then
      t1.filter (fun t => t.column_id == p.column_id) else t1
  let t3 := if truthyStr p.tag then
      t2.filter (fun t =>
        t.tags.any (fun g => pyLower g == pyLower (p.tag.getD ""))) else t2
  let t4 := if truthyStr p.priority then
      t3.filter (fun t => t.priority == srvPriorityMap (p.priority.getD "")) else t3
  let t5 := if truthyBool p.due_today then
      t4.filter (fun t =>
        match t.due_date with
        | none => false
        | some d => d.day == k.todayDay) else t4
  if truthyBool p.overdue then
    t5.filter (fun t =>
      match t.due_date with
      | none => false
      | some d => decide (d.day < k.todayDay) && !t.is_completed)
  else t5

/-- The full `status == "active"` listing: filter, then
`limit = params.limit or 50` and `tasks[:limit]`. -/
def srvActiveList (k : Clock) (p : SrvListParams)
    (tasks : List SrvTask) : List SrvTask :=
  let filtered := srvActiveFiltered k p tasks
  let lim : Int := if truthyInt p.limit then p.limit.getD 0 else 50
  pySliceTo lim filtered

/-! ## Session cache (`fast_cli.py`, `load_auth_cache` / `get_api`) -/

/-- `fast_cli.py`: `SESSION_TTL = 86400`. -/
def SESSION_TTL : Int := 86400

/-- The serialized `v2_session` entry of the cache file: `parses` records
whether `SessionToken.from_dict` succeeds on it. -/
structure SessionBlob where
  parses : Bool
  payload : String := ""
deriving DecidableEq, Repr

/-- The JSON document of `~/.ticktick/auth_cache.json`
(`cache.get("cached_at", 0)` defaults a missing timestamp to 0). -/
structure CacheContent where
  cached_at : Option Int := none
  v2_session : Option SessionBlob := none
deriving DecidableEq, Repr

/-- The state of the cache file on disk: absent, present but unreadable
(open/JSON failure), or readable with the given content. -/
inductive CacheFile where
  | missing
  | unreadable
  | readable (c : CacheContent)
deriving DecidableEq, Repr

/-- `fast_cli.py`, `load_auth_cache`: a missing or unreadable file yields
`None`, as does a file whose age exceeds `SESSION_TTL`. -/
def load_auth_cache (now : Int) (f : CacheFile) : Option CacheContent :=
  match f with
  | .missing => none
  | .unreadable => none
  | .readable c =>
    if now - c.cached_at.getD 0 > SESSION_TTL then none else some c

/-- How `get_api` resolves a session: `reused b` means the cached session is
installed with no login call; `freshLogin` means `authenticate` is awaited
and the new session saved via `save_auth_cache`; `credsError` is the
`ValueError` raised when no cached session and no credentials exist. -/
inductive AuthOutcome where
  | reused (b : SessionBlob)
  | freshLogin (persisted : Bool)
  | credsError
deriving DecidableEq, Repr

/-- `fast_cli.py`, `get_api`: load the cache, try to rehydrate the session
(`SessionToken.from_dict` failure falls back to `None`), else authenticate
with the environment credentials and persist the result. -/
def get_api_auth (now : Int) (f : CacheFile)
    (username pw : Option String) : AuthOutcome :=
  let cache := load_auth_cache now f
  let v2 : Option SessionBlob :=
    match cache with
    | some c =>
      match c.v2_session with
      | some b => if b.parses then some b else none
      | none => none
    | none => none
  match v2 with
  | some b => .reused b
  | none =>
    if !truthyStr username || !truthyStr pw then .credsError
    else .freshLogin true

/-! ## Batch task operations (`fast_cli.py`, `CachedAPI`)

Each operation is modelled as the ordered trace of upstream V2 calls it
issues, driven by an environment that answers `get_task` fetches. -/

/-- One element of the `update` list passed to `v2.batch_tasks` by
`complete_tasks` / `abandon_tasks`: task id, project id, status, and the
serialized completion time. -/
structure TaskUpdate where
  id : String
  projectId : String
  status : Int
  completedTime : String
deriving DecidableEq, Repr

/-- An upstream V2 API call issued by `CachedAPI`. -/
inductive V2Call where
  | getTaskCall (taskId : String)
  | createTaskCall (title : String) (projectId : String)
  | batchUpdate (updates : List TaskUpdate)
  | unsetParentCall (taskId projectId parentId : String)
deriving DecidableEq, Repr

/-- Is a call a `batch_tasks` round trip? -/
def V2Call.isBatchUpdate : V2Call → Bool
  | .batchUpdate _ => true
  | _ => false

/-- The environment a `CachedAPI` method runs against: the answer to each
`v2.get_task` fetch, the `id2etag` key list of each `create_task` response
(Python dict keys, in insertion order), the inbox project id, and the
`Task.format_datetime(datetime.now(), "v2")` rendering of the current
time. -/
structure ApiEnv where
  getTask : String → Except PyErr CliTask
  createResp : String → List String
  inbox_id : String := ""
  nowV2 : String := ""

/-- The fetch loop of `CachedAPI.complete_tasks`: one `get_task` per id,
accumulating one update record per id; an upstream fetch failure aborts the
loop with that exception. -/
def completeLoop (env : ApiEnv) :
    List String → List V2Call × List TaskUpdate × Option PyErr
  | [] => ([], [], none)
  | id :: rest =>
    match env.getTask id with
    | .error e => ([.getTaskCall id], [], some e)
    | .ok t =>
      let (cs, us, er) := completeLoop env rest
      (.getTaskCall id :: cs,
       ⟨id, t.project_id, TaskStatus_COMPLETED, env.nowV2⟩ :: us, er)

/-- `fast_cli.py`, `CachedAPI.complete_tasks`: fetch every task, then issue
a single `batch_tasks(update=updates)` call.  Returns the ordered call
trace and the exception, if one escaped. -/
def complete_tasks (env : ApiEnv) (task_ids : List String) :
    List V2Call × Option PyErr :=
  let (cs, us, er) := completeLoop env task_ids
  match er with
  | some e => (cs, some e)
  | none => (cs ++ [.batchUpdate us], none)

/-- The loop of `CachedAPI.create_tasks`: one `create_task` call per title,
then, when the response's `id2etag` has a first key, a follow-up
`get_task` whose result is appended. -/
def createLoop (env : ApiEnv) (pid : String) :
    List String → List V2Call × List CliTask × Option PyErr
  | [] => ([], [], none)
  | title :: rest =>
    match (env.createResp title).head? with
    | none =>
      let (cs, rs, er) := createLoop env pid rest
      (.createTaskCall title pid :: cs, rs, er)
    | some tid =>
      match env.getTask tid with
      | .error e => ([.createTaskCall title pid, .getTaskCall tid], [], some e)
      | .ok t =>
        let (cs, rs, er) := createLoop env pid rest
        (.createTaskCall title pid :: .getTaskCall tid :: cs, t :: rs, er)

/-- `fast_cli.py`, `CachedAPI.create_tasks`: `pid = project_id or inbox`,
then the per-title loop.  Returns the call trace, the returned task list,
and the exception, if one escaped a follow-up fetch. -/
def create_tasks (env : ApiEnv) (titles : List String)
    (project_id : Option String) : List V2Call × List CliTask × Option PyErr :=
  let pid := if truthyStr project_id then project_id.getD "" else env.inbox_id
  createLoop env pid titles

/-- `fast_cli.py`, `CachedAPI.unset_task_parents`: per id, fetch the task;
a falsy `parent_id` raises `ValueError(f"Task {task_id} has no parent")`
before any upstream unset call; otherwise `v2.unset_task_parent` is
issued. -/
def unset_task_parents (env : ApiEnv) :
    List String → List V2Call × Option PyErr
  | [] => ([], none)
  | id :: rest =>
    match env.getTask id with
    | .error e => ([.getTaskCall id], some e)
    | .ok t =>
      if !truthyStr t.parent_id then
        ([.getTaskCall id], some ⟨"ValueError", "Task " ++ id ++ " has no parent"⟩)
      else
        let (cs, er) := unset_task_parents env rest
        (.getTaskCall id :: .unsetParentCall id t.project_id (t.parent_id.getD "") :: cs,
         er)

/-! ## Input validation (`tools/inputs.py`, `TasksInput`) -/

/-- A character of the class `[a-f0-9]`. -/
def isLowerHexDigit (c : Char) : Bool :=
  ('a' ≤ c && c ≤ 'f') || ('0' ≤ c && c ≤ '9')

/-- The field pattern `^[a-f0-9]{24}$` of `task_id` / `column_id`. -/
def isHex24 (s : String) : Bool :=
  s.length == 24 && s.data.all isLowerHexDigit

/-- The alternative `inbox\d+` of the `project_id` pattern. -/
def isInboxId (s : String) : Bool :=
  "inbox".data.isPrefixOf s.data &&
  !(s.data.drop 5).isEmpty &&
  (s.data.drop 5).all Char.isDigit

/-- The field pattern `^(inbox\d+|[a-f0-9]{24})$` of `project_id`. -/
def isProjectIdStr (s : String) : Bool :=
  isInboxId s || isHex24 s

/-- The field pattern `^\d{4}-\d{2}-\d{2}$` of `from_date` / `to_date`. -/
def isDateStr (s : String) : Bool :=
  match s.data with
  | [a, b, c, d, h1, e, f, h2, g, i] =>
    a.isDigit && b.isDigit && c.isDigit && d.isDigit && h1 == '-' &&
    e.isDigit && f.isDigit && h2 == '-' && g.isDigit && i.isDigit
  | _ => false

/-- A constraint on an optional field, vacuous at `None`. -/
def optCheck (f : α → Bool) (o : Option α) : Bool :=
  o.elim true f

/-- An opaque Python `dict` element of the `tasks` / `moves` lists (their
entries are not validated by `TasksInput`). -/
abbrev PyDict : Type := List (String × String)

/-- The raw field assignments of a `TasksInput` construction, before
validation. -/
structure TasksInputRaw where
  action : String
  response_format : Option String := none
  tasks : Option (List PyDict) := none
  task_id : Option String := none
  status : Option String := none
  project_id : Option String := none
  column_id : Option String := none
  tag : Option String := none
  priority : Option String := none
  due_today : Option Bool := none
  overdue : Option Bool := none
  from_date : Option String := none
  to_date : Option String := none
  days : Option Int := none
  limit : Option Int := none
  query : Option String := none
  moves : Option (List PyDict) := none

/-- `str_strip_whitespace=True`: every string field is stripped before
validation. -/
def trimTasksInput (r : TasksInputRaw) : TasksInputRaw :=
  { r with
    action := pyStrip r.action
    response_format := r.response_format.map pyStrip
    task_id := r.task_id.map pyStrip
    status := r.status.map pyStrip
    project_id := r.project_id.map pyStrip
    column_id := r.column_id.map pyStrip
    tag := r.tag.map pyStrip
    priority := r.priority.map pyStrip
    from_date := r.from_date.map pyStrip
    to_date := r.to_date.map pyStrip
    query := r.query.map pyStrip }

/-- The `Literal` and `Field` constraints of `TasksInput`: action and
status literals, id/date patterns, numeric ranges, query length. -/
def tasksFieldChecks (r : TasksInputRaw) : Bool :=
  ["create", "get", "list", "update", "complete", "delete", "move", "pin",
   "search", "set_parents", "unparent"].contains r.action &&
  optCheck (fun s => s == "markdown" || s == "json") r.response_format &&
  optCheck isHex24 r.task_id &&
  optCheck (fun s =>
    s == "active" || s == "completed" || s == "abandoned" || s == "deleted")
    r.status &&
  optCheck isProjectIdStr r.project_id &&
  optCheck isHex24 r.column_id &&
  optCheck (fun s => s == "none" || s == "low" || s == "medium" || s == "high")
    r.priority &&
  optCheck isDateStr r.from_date &&
  optCheck isDateStr r.to_date &&
  optCheck (fun n : Int => 1 ≤ n && n ≤ 90) r.days &&
  optCheck (fun n : Int => 1 ≤ n && n ≤ 500) r.limit &&
  optCheck (fun s : String => 1 ≤ s.length && s.length ≤ 200) r.query

/-- `TasksInput.validate_action_params`: the `model_validator` raising on
each action whose required field is absent or falsy. -/
def tasksActionCheck (r : TasksInputRaw) : Bool :=
  !(r.action == "create" && !truthyList r.tasks) &&
  !(r.action == "get" && !truthyStr r.task_id) &&
  !((r.action == "update" || r.action == "complete" || r.action == "delete" ||
     r.action == "pin" || r.action == "set_parents" || r.action == "unparent") &&
    !truthyList r.tasks) &&
  !(r.action == "move" && !truthyList r.moves) &&
  !(r.action == "search" && !truthyStr r.query)

/-- Pydantic validation of a `TasksInput`: strip, field constraints, then
the action-specific model validator; `some` is the accepted value. -/
def validateTasksInput (raw : TasksInputRaw) : Option TasksInputRaw :=
  let r := trimTasksInput raw
  if tasksFieldChecks r && tasksActionCheck r then some r else none

/-- The overdue criterion exactly as claim C3 words it: the due date lies
strictly before the current instant, the comparison being timezone-aware
(absolute instants) when the due date carries a zone and naive (wall
clocks) otherwise. -/
def claimOverdueBefore (k : Clock) (d : PyDateTime) : Bool :=
  match d.tzOff with
  | some off => decide (d.wall - off < k.nowAbs)
  | none => decide (d.wall < k.nowAbs + k.localOff)

/-- A position at which `sub` occurs in `r` entirely before the truncation
margin `CHARACTER_LIMIT - 500` (the candidate cut points of
`truncate_response`). -/
def cutCandidate (r : String) (sub : String) (p : Nat) : Prop :=
  matchSubAt r.data sub.data p = true ∧ p + sub.length ≤ CHARACTER_LIMIT - 500

/-! ## Helper lemmas -/

theorem length_mk (l : List Char) : (String.mk l).length = l.length := rfl

theorem data_append (s t : String) : (s ++ t).data = s.data ++ t.data := rfl

theorem searchDown_some {s sub : List Char} {n p : Nat}
    (h : searchDown s sub n = some p) :
    p ≤ n ∧ matchSubAt s sub p = true := by
  induction n with
  | zero =>
    unfold searchDown at h
    split at h
    · cases h; exact ⟨Nat.le_refl 0, by assumption⟩
    · cases h
  | succ k ih =>
    unfold searchDown at h
    split at h
    · cases h; exact ⟨Nat.le_refl _, by assumption⟩
    · obtain ⟨h1, h2⟩ := ih h
      exact ⟨Nat.le_succ_of_le h1, h2⟩

theorem searchDown_greatest {s sub : List Char} {n p : Nat}
    (h : searchDown s sub n = some p) :
    ∀ q, q ≤ n → matchSubAt s sub q = true → q ≤ p := by
  induction n with
  | zero =>
    intro q hq _
    have := (searchDown_some h).1
    omega
  | succ k ih =>
    intro q hq hm
    unfold searchDown at h
    split at h
    · cases h; exact hq
    · rcases Nat.lt_or_ge q (k + 1) with hlt | hge
      · exact ih h q (Nat.lt_succ_iff.mp hlt) hm
      · have : q = k + 1 := Nat.le_antisymm hq hge
        subst this
        simp_all

theorem searchDown_none {s sub : List Char} {n : Nat}
    (h : searchDown s sub n = none) :
    ∀ q, q ≤ n → matchSubAt s sub q = false := by
  induction n with
  | zero =>
    intro q hq
    interval_cases q
    unfold searchDown at h
    split at h
    · cases h
    · simp_all
  | succ k ih =>
    intro q hq
    unfold searchDown at h
    split at h
    · cases h
    · rcases Nat.lt_or_ge q (k + 1) with hlt | hge
      · exact ih h q (Nat.lt_succ_iff.mp hlt)
      · have : q = k + 1 := Nat.le_antisymm hq hge
        subst this
        simp_all

theorem pyRfind_some {s sub : String} {stop p : Nat}
    (h : pyRfind s sub stop = some p) :
    matchSubAt s.data sub.data p = true ∧
      p + sub.length ≤ min stop s.length ∧
      ∀ q, matchSubAt s.data sub.data q = true →
        q + sub.length ≤ min stop s.length → q ≤ p := by
  simp only [pyRfind] at h
  split at h
  case isTrue hle =>
    obtain ⟨h1, h2⟩ := searchDown_some h
    have hp : p + sub.length ≤ min stop s.length := by
      have := Nat.add_le_of_le_sub hle h1
      omega
    refine ⟨h2, hp, fun q hq hqle => ?_⟩
    exact searchDown_greatest h q (by omega) hq
  case isFalse => cases h

theorem pyRfind_none {s sub : String} {stop : Nat}
    (h : pyRfind s sub stop = none) :
    ∀ q, matchSubAt s.data sub.data q = true →
      ¬(q + sub.length ≤ min stop s.length) := by
  simp only [pyRfind] at h
  split at h
  case isTrue hle =>
    intro q hq hqle
    have := searchDown_none h q (by omega)
    simp_all
  case isFalse hle =>
    intro q _ hqle
    exact hle (by omega)

/-! ## Claim C1 -/

/-- C1: size governance of rendered responses.  A rendered string at or
below the 25,000-character budget is returned unchanged by
`truncate_response`; a strictly longer one yields a string of length at
most 25,000 that ends with the truncation notice, whose portion before the
notice is a prefix of the untruncated render, cut at the last paragraph
break (`"\n\n"`) lying before the 500-character safety margin, falling back
to the last line break, falling back to a hard cut at the margin. -/
theorem C1_size_governance (r : String) :
    (r.length ≤ CHARACTER_LIMIT → truncate_response r = r) ∧
    (CHARACTER_LIMIT < r.length →
      (truncate_response r).length ≤ CHARACTER_LIMIT ∧
      truncMsg.data <:+ (truncate_response r).data ∧
      (truncate_response r).data = r.data.take (truncatePoint r) ++ truncMsg.data ∧
      r.data.take (truncatePoint r) <+: r.data ∧
      ((∃ p, cutCandidate r "\n\n" p) →
        cutCandidate r "\n\n" (truncatePoint r) ∧
        ∀ q, cutCandidate r "\n\n" q → q ≤ truncatePoint r) ∧
      ((¬ ∃ p, cutCandidate r "\n\n" p) →
        ((∃ p, cutCandidate r "\n" p) →
          cutCandidate r "\n" (truncatePoint r) ∧
          ∀ q, cutCandidate r "\n" q → q ≤ truncatePoint r) ∧
        ((¬ ∃ p, cutCandidate r "\n" p) →
          truncatePoint r = CHARACTER_LIMIT - 500))) := by
  have hC : CHARACTER_LIMIT = 25000 := rfl
  constructor
  · intro hle
    unfold truncate_response
    rw [if_pos hle]
  · intro hgt
    have hnle : ¬ r.length ≤ CHARACTER_LIMIT := by omega
    have hd : (truncate_response r).data =
        r.data.take (truncatePoint r) ++ truncMsg.data := by
      unfold truncate_response
      rw [if_neg hnle]
      rfl
    have hmin : min (CHARACTER_LIMIT - 500) r.length = CHARACTER_LIMIT - 500 := by
      omega
    have hs2 : ("\n\n" : String).length = 2 := rfl
    have hs1 : ("\n" : String).length = 1 := rfl
    have htp_cases :
        (cutCandidate r "\n\n" (truncatePoint r) ∧
          ∀ q, cutCandidate r "\n\n" q → q ≤ truncatePoint r) ∨
        ((¬ ∃ p, cutCandidate r "\n\n" p) ∧
          cutCandidate r "\n" (truncatePoint r) ∧
          ∀ q, cutCandidate r "\n" q → q ≤ truncatePoint r) ∨
        ((¬ ∃ p, cutCandidate r "\n\n" p) ∧ (¬ ∃ p, cutCandidate r "\n" p) ∧
          truncatePoint r = CHARACTER_LIMIT - 500) := by
      cases h2 : pyRfind r "\n\n" (CHARACTER_LIMIT - 500) with
      | some p =>
        left
        have htp : truncatePoint r = p := by
          simp only [truncatePoint, h2]
        obtain ⟨hm, hle, hmax⟩ := pyRfind_some h2
        rw [hmin] at hle
        rw [htp]
        refine ⟨⟨hm, hle⟩, fun q hq => ?_⟩
        exact hmax q hq.1 (by rw [hmin]; exact hq.2)
      | none =>
        have hnone2 : ¬ ∃ p, cutCandidate r "\n\n" p := by
          rintro ⟨p, hm, hle⟩
          exact pyRfind_none h2 p hm (by rw [hmin]; exact hle)
        cases h1 : pyRfind r "\n" (CHARACTER_LIMIT - 500) with
        | some p =>
          right; left
          have htp : truncatePoint r = p := by
            simp only [truncatePoint, h2, h1]
          obtain ⟨hm, hle, hmax⟩ := pyRfind_some h1
          rw [hmin] at hle
          rw [htp]
          refine ⟨hnone2, ⟨hm, hle⟩, fun q hq => ?_⟩
          exact hmax q hq.1 (by rw [hmin]; exact hq.2)
        | none =>
          right; right
          have hnone1 : ¬ ∃ p, cutCandidate r "\n" p := by
            rintro ⟨p, hm, hle⟩
            exact pyRfind_none h1 p hm (by rw [hmin]; exact hle)
          refine ⟨hnone2, hnone1, ?_⟩
          simp only [truncatePoint, h2, h1]
    have htp_le : truncatePoint r ≤ CHARACTER_LIMIT - 500 := by
      rcases htp_cases with ⟨⟨_, hle⟩, _⟩ | ⟨_, ⟨_, hle⟩, _⟩ | ⟨_, _, heq⟩
      · rw [hs2] at hle; omega
      · rw [hs1] at hle; omega
      · omega
    have hmsg : truncMsg.data.length = 60 := rfl
    have hlen : (truncate_response r).length =
        (r.data.take (truncatePoint r)).length + truncMsg.data.length := by
      show (truncate_response r).data.length = _
      rw [hd, List.length_append]
    refine ⟨?_, ?_, hd, List.take_prefix _ _, ?_, ?_⟩
    · rw [hlen, hmsg]
      have := List.length_take_le (truncatePoint r) r.data
      omega
    · rw [hd]
      exact List.suffix_append _ _
    · intro hex
      rcases htp_cases with hcase | ⟨hno, _⟩ | ⟨hno, _, _⟩
      · exact hcase
      · exact absurd hex hno
      · exact absurd hex hno
    · intro hno2
      constructor
      · intro hex1
        rcases htp_cases with ⟨hcand, _⟩ | ⟨_, hcase⟩ | ⟨_, hno1, _⟩
        · exact absurd ⟨_, hcand⟩ hno2
        · exact hcase
        · exact absurd hex1 hno1
      · intro hno1
        rcases htp_cases with ⟨hcand, _⟩ | ⟨_, hcand, _⟩ | ⟨_, _, heq⟩
        · exact absurd ⟨_, hcand⟩ hno2
        · exact absurd ⟨_, hcand⟩ hno1
        · exact heq

/-- Witness for C1: a small string is returned unchanged, and a concrete
25,001-character string is truncated to within the budget. -/
theorem C1_size_governance_witness :
    (("hello" : String).length ≤ CHARACTER_LIMIT ∧
      truncate_response "hello" = "hello") ∧
    (CHARACTER_LIMIT < (String.mk (List.replicate 25001 'a')).length ∧
      (truncate_response (String.mk (List.replicate 25001 'a'))).length ≤
        CHARACTER_LIMIT) := by
  have hlen : (String.mk (List.replicate 25001 'a')).length = 25001 := by
    rw [length_mk, List.length_replicate]
  have hgt : CHARACTER_LIMIT < (String.mk (List.replicate 25001 'a')).length := by
    rw [hlen]
    decide
  exact ⟨⟨by decide, (C1_size_governance "hello").1 (by decide)⟩,
    ⟨hgt, ((C1_size_governance _).2 hgt).1⟩⟩

/-! ## Claim C2 -/

/-- C2 counterexample: the CLI listing (`CachedAPI.list_tasks`) drops a
fetched active task whose tag `"Work"` matches the filter `"work"`
case-insensitively, because its membership test
`tag not in (task.tags or [])` is case-sensitive; so "kept iff
case-insensitive match" is false there. -/
theorem C2_counterexample :
    cliListTasks { clock := ⟨0, 0⟩, dateStrOfDay := fun _ => "" }
      { tag := some "work" }
      [{ id := "t1", project_id := "p1", tags := some ["Work"] }] = [] ∧
    (pyLower "Work" == pyLower "work") = true := by
  constructor
  · rfl
  · rfl

/-- C2 (amended): for a non-empty tag filter, the MCP server listing keeps
a fetched task iff some task tag equals the filter after lowercasing both
sides, while the CLI listing keeps an active task iff the filter string is
literally (case-sensitively) one of the task's tags. -/
theorem C2_amended_tag_filter (env : CliListEnv) (k : Clock) (f : String)
    (hs : f ≠ "") (tsCli : List CliTask) (tsSrv : List SrvTask)
    (t : CliTask) (u : SrvTask) :
    (t ∈ cliListTasks env { tag := some f } tsCli ↔
      t ∈ tsCli ∧ t.status = TaskStatus_ACTIVE ∧ f ∈ t.tags.getD []) ∧
    (u ∈ srvActiveFiltered k { tag := some f } tsSrv ↔
      u ∈ tsSrv ∧ u.tags.any (fun g => pyLower g == pyLower f) = true) := by
  have hf : (f == "") = false := by
    simp [hs]
  constructor
  · simp [cliListTasks, cliListTasksFiltered, cliEffFromDate, cliKeep,
      truthyStr, truthyInt, truthyBool, hf, List.mem_filter,
      TaskStatus_ACTIVE, and_assoc]
  · simp [srvActiveFiltered, truthyStr, truthyBool, hf, List.mem_filter]

/-- Witness for C2 (amended): a concrete task tagged `"work"` is kept by
the CLI listing under the filter `"work"`, and a concrete task tagged
`"Work"` is kept by the server listing under the same filter. -/
theorem C2_amended_tag_filter_witness :
    ("work" : String) ≠ "" ∧
    ({ id := "t2", project_id := "p1", tags := some ["work"] } : CliTask) ∈
      cliListTasks { clock := ⟨0, 0⟩, dateStrOfDay := fun _ => "" }
        { tag := some "work" }
        [{ id := "t2", project_id := "p1", tags := some ["work"] }] ∧
    ({ id := "t3", project_id := "p1", tags := ["Work"] } : SrvTask) ∈
      srvActiveFiltered ⟨0, 0⟩ { tag := some "work" }
        [{ id := "t3", project_id := "p1", tags := ["Work"] }] := by
  refine ⟨by decide, ?_, ?_⟩
  · exact (C2_amended_tag_filter { clock := ⟨0, 0⟩, dateStrOfDay := fun _ => "" }
      ⟨0, 0⟩ "work" (by decide) _ [] _ { id := "" }).1.mpr (by decide)
  · exact (C2_amended_tag_filter { clock := ⟨0, 0⟩, dateStrOfDay := fun _ => "" }
      ⟨0, 0⟩ "work" (by decide) [] _ { id := "" } _).2.mpr (by decide)

/-! ## Claim C3 -/

/-- C3 counterexample: with the clock at absolute instant 50,000 (offset 0,
so about 13:53 UTC of day 0), the MCP server listing with `overdue=true`
drops a not-completed task due at wall time 30,000 of the same day, even
though that due date lies strictly before the current instant: the server
compares calendar days (`t.due_date.date() < today`), not instants. -/
theorem C3_counterexample :
    srvActiveFiltered ⟨50000, 0⟩ { overdue := some true }
      [{ id := "t1", project_id := "p1",
         due_date := some ⟨30000, none⟩ }] = [] ∧
    claimOverdueBefore ⟨50000, 0⟩ ⟨30000, none⟩ = true := by
  constructor
  · rfl
  · rfl

/-- C3 (amended): with `overdue=true`, the CLI listing keeps a fetched
active task iff it has a due date strictly before the current instant
(timezone-aware when the due date carries a zone, naive otherwise), while
the MCP server listing keeps a task iff it has a due date whose wall-clock
calendar day strictly precedes the current local calendar day and the task
is not completed. -/
theorem C3_amended_overdue (env : CliListEnv) (k : Clock)
    (tsCli : List CliTask) (tsSrv : List SrvTask)
    (t : CliTask) (u : SrvTask) :
    (t ∈ cliListTasks env { overdue := some true } tsCli ↔
      t ∈ tsCli ∧ t.status = TaskStatus_ACTIVE ∧
      ∃ d, t.due_date = some d ∧ claimOverdueBefore env.clock d = true) ∧
    (u ∈ srvActiveFiltered k { overdue := some true } tsSrv ↔
      u ∈ tsSrv ∧ u.is_completed = false ∧
      ∃ d, u.due_date = some d ∧ d.day < k.todayDay) := by
  constructor
  · have hkeep : ∀ x : CliTask,
        (cliKeep env { overdue := some true }
          (cliEffFromDate env { overdue := some true }) x = true) ↔
        (x.status = TaskStatus_ACTIVE ∧ ∃ d, x.due_date = some d ∧
          claimOverdueBefore env.clock d = true) := by
      intro x
      cases hd : x.due_date with
      | none =>
        simp [cliKeep, cliEffFromDate, truthyStr, truthyInt, truthyBool, hd,
          TaskStatus_ACTIVE]
      | some d =>
        cases ho : d.tzOff with
        | none =>
          simp [cliKeep, cliEffFromDate, claimOverdueBefore, truthyStr,
            truthyInt, truthyBool, hd, ho, TaskStatus_ACTIVE]
        | some off =>
          simp [cliKeep, cliEffFromDate, claimOverdueBefore, truthyStr,
            truthyInt, truthyBool, hd, ho, TaskStatus_ACTIVE]
          exact fun _ => by omega
    simp only [cliListTasks, cliListTasksFiltered, truthyInt, truthyBool]
    simp [List.mem_filter, hkeep]
  · have hkeep : ∀ x : SrvTask,
        ((match x.due_date with
          | none => false
          | some d => decide (d.day < k.todayDay) && !x.is_completed) = true) ↔
        (x.is_completed = false ∧ ∃ d, x.due_date = some d ∧
          d.day < k.todayDay) := by
      intro x
      cases hd : x.due_date with
      | none => simp [hd]
      | some d =>
        simp [hd]
        tauto
    simp only [srvActiveFiltered, truthyStr, truthyBool]
    simp [List.mem_filter, hkeep]

/-- Witness for C3 (amended): a task due at naive wall time 30,000 with the
clock at instant 50,000 is kept by the CLI listing, and a task due the
previous day and not completed is kept by the server listing. -/
theorem C3_amended_overdue_witness :
    ({ id := "t1", project_id := "p1",
       due_date := some ⟨30000, none⟩ } : CliTask) ∈
      cliListTasks { clock := ⟨50000, 0⟩, dateStrOfDay := fun _ => "" }
        { overdue := some true }
        [{ id := "t1", project_id := "p1", due_date := some ⟨30000, none⟩ }] ∧
    ({ id := "t2", project_id := "p1",
       due_date := some ⟨-10000, none⟩ } : SrvTask) ∈
      srvActiveFiltered ⟨50000, 0⟩ { overdue := some true }
        [{ id := "t2", project_id := "p1", due_date := some ⟨-10000, none⟩ }] := by
  constructor
  · exact (C3_amended_overdue { clock := ⟨50000, 0⟩, dateStrOfDay := fun _ => "" }
      ⟨50000, 0⟩ _ [] _ { id := "" }).1.mpr
      ⟨by decide, rfl, ⟨30000, none⟩, rfl, by decide⟩
  · exact (C3_amended_overdue { clock := ⟨50000, 0⟩, dateStrOfDay := fun _ => "" }
      ⟨50000, 0⟩ [] _ { id := "" } _).2.mpr
      ⟨by decide, rfl, ⟨-10000, none⟩, rfl, by decide⟩

/-! ## Claim C7 -/

/-- C7: creation/modification date-range filtering in
`CachedAPI.list_tasks`.  For a task whose stringified creation timestamp
(falling back to its modification timestamp) is `s`, and supplied
`from_date`/`to_date` bounds, the task is kept by the listing iff it is
active and not excluded, where exclusion is exactly: the first ten
characters of `s` compare lexicographically strictly below `from_date` or
strictly above `to_date` (a string-prefix comparison, not a calendar
check). -/
theorem C7_date_range_filter (env : CliListEnv) (fromD toD : Option String)
    (hf : fromD ≠ some "") (ht : toD ≠ some "")
    (ts : List CliTask) (t : CliTask) (s : String)
    (hts : t.created_time.or t.modified_time = some s) :
    t ∈ cliListTasks env { from_date := fromD, to_date := toD } ts ↔
      t ∈ ts ∧ t.status = TaskStatus_ACTIVE ∧
      ¬((∃ f, fromD = some f ∧ pyStrLt (pyTake10 s) f = true) ∨
        (∃ g, toD = some g ∧ pyStrLt g (pyTake10 s) = true)) := by
  have hmem : t ∈ cliListTasks env { from_date := fromD, to_date := toD } ts ↔
      t ∈ ts ∧ cliKeep env { from_date := fromD, to_date := toD }
        (cliEffFromDate env { from_date := fromD, to_date := toD }) t = true := by
    simp [cliListTasks, cliListTasksFiltered, truthyInt, List.mem_filter]
  have heff : cliEffFromDate env { from_date := fromD, to_date := toD } = fromD := by
    simp [cliEffFromDate, truthyInt]
  rw [hmem, heff]
  cases fromD with
  | none =>
    cases toD with
    | none =>
      simp [cliKeep, truthyStr, truthyBool, hts, TaskStatus_ACTIVE]
    | some g =>
      have hg : (g == "") = false := by
        simp only [beq_eq_false_iff_ne, ne_eq]
        intro h
        exact ht (by rw [h])
      simp [cliKeep, truthyStr, truthyBool, hts, hg, TaskStatus_ACTIVE,
        and_assoc]
  | some f =>
    have hf0 : (f == "") = false := by
      simp only [beq_eq_false_iff_ne, ne_eq]
      intro h
      exact hf (by rw [h])
    cases toD with
    | none =>
      simp [cliKeep, truthyStr, truthyBool, hts, hf0, TaskStatus_ACTIVE,
        and_assoc]
    | some g =>
      have hg : (g == "") = false := by
        simp only [beq_eq_false_iff_ne, ne_eq]
        intro h
        exact ht (by rw [h])
      simp [cliKeep, truthyStr, truthyBool, hts, hf0, hg, TaskStatus_ACTIVE,
        and_assoc, not_or]

/-- Witness for C7: a task created `2024-03-05 10:00:00` is kept by a
listing bounded by `from_date = 2024-01-01` and `to_date = 2024-12-31`. -/
theorem C7_date_range_filter_witness :
    ({ id := "t1", project_id := "p1",
       created_time := some "2024-03-05 10:00:00" } : CliTask) ∈
      cliListTasks { clock := ⟨0, 0⟩, dateStrOfDay := fun _ => "" }
        { from_date := some "2024-01-01", to_date := some "2024-12-31" }
        [{ id := "t1", project_id := "p1",
           created_time := some "2024-03-05 10:00:00" }] := by
  refine (C7_date_range_filter
      { clock := ⟨0, 0⟩, dateStrOfDay := fun _ => "" }
      (some "2024-01-01") (some "2024-12-31") (by decide) (by decide)
      [{ id := "t1", project_id := "p1",
         created_time := some "2024-03-05 10:00:00" }]
      { id := "t1", project_id := "p1",
        created_time := some "2024-03-05 10:00:00" }
      "2024-03-05 10:00:00" rfl).mpr ⟨by decide, rfl, ?_⟩
  rintro (⟨f, hf, hlt⟩ | ⟨g, hg, hlt⟩)
  · cases hf
    revert hlt
    decide
  · cases hg
    revert hlt
    decide

/-! ## Claim C4 -/

/-- C4 counterexample: a readable cache file of age zero (well within the
24-hour TTL) that lacks a `v2_session` entry still forces a fresh login in
`get_api`, contradicting "a cache file whose age is within the TTL is
reused and no login call is made". -/
theorem C4_counterexample :
    get_api_auth 0 (.readable { cached_at := some 0, v2_session := none })
      (some "u") (some "p") = .freshLogin true ∧
    (0 : Int) - 0 ≤ SESSION_TTL := by
  exact ⟨rfl, by decide⟩

/-- C4 (amended): with credentials present, a missing, unreadable, or
stale (age above `SESSION_TTL`) cache file forces a fresh login whose
session is persisted; a within-TTL cache file containing a parseable
`v2_session` is reused with no login call; and a within-TTL cache file
whose `v2_session` is absent or unparseable also forces a fresh login. -/
theorem C4_amended_session_cache (now : Int) (u p : Option String)
    (hu : truthyStr u = true) (hp : truthyStr p = true) :
    (get_api_auth now .missing u p = .freshLogin true) ∧
    (get_api_auth now .unreadable u p = .freshLogin true) ∧
    (∀ c : CacheContent, now - c.cached_at.getD 0 > SESSION_TTL →
      get_api_auth now (.readable c) u p = .freshLogin true) ∧
    (∀ (c : CacheContent) (b : SessionBlob),
      now - c.cached_at.getD 0 ≤ SESSION_TTL →
      c.v2_session = some b → b.parses = true →
      get_api_auth now (.readable c) u p = .reused b) ∧
    (∀ c : CacheContent, now - c.cached_at.getD 0 ≤ SESSION_TTL →
      (c.v2_session = none ∨ ∃ b, c.v2_session = some b ∧ b.parses = false) →
      get_api_auth now (.readable c) u p = .freshLogin true) := by
  refine ⟨?_, ?_, ?_, ?_, ?_⟩
  · simp [get_api_auth, load_auth_cache, hu, hp]
  · simp [get_api_auth, load_auth_cache, hu, hp]
  · intro c hstale
    simp [get_api_auth, load_auth_cache, hstale, hu, hp]
  · intro c b hfresh hses hparse
    have hnot : ¬(now - c.cached_at.getD 0 > SESSION_TTL) := by omega
    simp [get_api_auth, load_auth_cache, hnot, hses, hparse]
  · intro c hfresh hbad
    have hnot : ¬(now - c.cached_at.getD 0 > SESSION_TTL) := by omega
    rcases hbad with hnone | ⟨b, hses, hparse⟩
    · simp [get_api_auth, load_auth_cache, hnot, hnone, hu, hp]
    · simp [get_api_auth, load_auth_cache, hnot, hses, hparse, hu, hp]

/-- Witness for C4 (amended): a missing cache file logs in afresh, and a
50-second-old cache file with a parseable session is reused. -/
theorem C4_amended_session_cache_witness :
    truthyStr (some "u") = true ∧ truthyStr (some "p") = true ∧
    get_api_auth 0 .missing (some "u") (some "p") = .freshLogin true ∧
    get_api_auth 100
      (.readable { cached_at := some 50, v2_session := some ⟨true, "blob"⟩ })
      (some "u") (some "p") = .reused ⟨true, "blob"⟩ := by
  refine ⟨by decide, by decide, ?_, ?_⟩
  · exact (C4_amended_session_cache 0 (some "u") (some "p")
      (by decide) (by decide)).1
  · exact (C4_amended_session_cache 100 (some "u") (some "p")
      (by decide) (by decide)).2.2.2.1
      { cached_at := some 50, v2_session := some ⟨true, "blob"⟩ }
      ⟨true, "blob"⟩ (by decide) rfl rfl

/-! ## Claim C5 -/

/-- The fetch loop of `complete_tasks` on ids whose fetches all succeed:
one `get_task` call per id in order, one update record per id carrying that
id, the fetched task's project id, the completed status and the serialized
current time. -/
theorem completeLoop_ok (env : ApiEnv) (ids : List String)
    (h : ∀ id ∈ ids, ∃ t, env.getTask id = .ok t) :
    ∃ us : List TaskUpdate,
      completeLoop env ids = (ids.map V2Call.getTaskCall, us, none) ∧
      List.Forall₂ (fun id u => ∃ t, env.getTask id = .ok t ∧
        u = ⟨id, t.project_id, TaskStatus_COMPLETED, env.nowV2⟩) ids us := by
  induction ids with
  | nil => exact ⟨[], rfl, .nil⟩
  | cons id rest ih =>
    obtain ⟨t, ht⟩ := h id (List.mem_cons_self id rest)
    obtain ⟨us, hloop, hfa⟩ := ih (fun i hi => h i (List.mem_cons_of_mem _ hi))
    refine ⟨⟨id, t.project_id, TaskStatus_COMPLETED, env.nowV2⟩ :: us, ?_, ?_⟩
    · simp [completeLoop, ht, hloop]
    · exact .cons ⟨t, ht, rfl⟩ hfa

/-- C5: for every non-empty id list whose fetches succeed,
`CachedAPI.complete_tasks` first issues one `get_task` call per id in input
order, builds one update record per id carrying that id, the discovered
project id, the `Completed` status and the serialized current time, and
then issues exactly one `batch_tasks` round trip carrying all the updates
together. -/
theorem C5_complete_batch (env : ApiEnv) (ids : List String)
    (_hne : ids ≠ [])
    (h : ∀ id ∈ ids, ∃ t, env.getTask id = .ok t) :
    ∃ us : List TaskUpdate,
      complete_tasks env ids =
        (ids.map V2Call.getTaskCall ++ [.batchUpdate us], none) ∧
      List.Forall₂ (fun id u => ∃ t, env.getTask id = .ok t ∧
        u = ⟨id, t.project_id, TaskStatus_COMPLETED, env.nowV2⟩) ids us ∧
      (ids.map V2Call.getTaskCall ++ [V2Call.batchUpdate us]).countP
        V2Call.isBatchUpdate = 1 := by
  obtain ⟨us, hloop, hfa⟩ := completeLoop_ok env ids h
  refine ⟨us, ?_, hfa, ?_⟩
  · simp [complete_tasks, hloop]
  · rw [List.countP_append, List.countP_map]
    have h0 : ids.countP (V2Call.isBatchUpdate ∘ V2Call.getTaskCall) = 0 := by
      simp [List.countP_eq_zero, V2Call.isBatchUpdate, Function.comp]
    rw [h0]
    rfl

/-- Witness for C5: completing two tasks against an environment that
resolves every id to a task in project `p1` yields the two fetches followed
by a single batch update. -/
theorem C5_complete_batch_witness :
    ∃ us : List TaskUpdate,
      complete_tasks
        { getTask := fun id => .ok { id := id, project_id := "p1" },
          createResp := fun _ => [], inbox_id := "inbox",
          nowV2 := "2025-01-01T00:00:00.000+0000" }
        ["a", "b"] =
        ((["a", "b"].map V2Call.getTaskCall) ++ [.batchUpdate us], none) ∧
      List.Forall₂ (fun id u => ∃ t,
        (Except.ok { id := id, project_id := "p1" } : Except PyErr CliTask) =
          .ok t ∧
        u = (⟨id, t.project_id, TaskStatus_COMPLETED,
              "2025-01-01T00:00:00.000+0000"⟩ : TaskUpdate)) ["a", "b"] us ∧
      ((["a", "b"].map V2Call.getTaskCall) ++ [V2Call.batchUpdate us]).countP
        V2Call.isBatchUpdate = 1 :=
  C5_complete_batch _ _ (by decide) (fun id _ => ⟨_, rfl⟩)

/-! ## Claim C6 -/

/-- C6 counterexample: unsetting the parent of a task that has none fails
with a Python `ValueError` — whose type name does not contain
`"Validation"`, so it is not one of the package's `ValidationError`
classes — and issues no upstream unset call (the trace holds only the
fetch). -/
theorem C6_counterexample :
    unset_task_parents
      { getTask := fun id => .ok { id := id, project_id := "p1" },
        createResp := fun _ => [] } ["t1"] =
      ([.getTaskCall "t1"], some ⟨"ValueError", "Task t1 has no parent"⟩) ∧
    strContains "ValueError" "Validation" = false := by
  exact ⟨rfl, rfl⟩

/-- C6 (amended): for any task id whose fetch succeeds, if the fetched
task has no (truthy) `parent_id`, `unset_task_parents` raises
`ValueError(f"Task {task_id} has no parent")` before issuing any upstream
unset call; if the task's `parent_id` is set, the upstream
`unset_task_parent` call is issued for that task with its current project
id and parent id. -/
theorem C6_amended_unset_parent (env : ApiEnv) (id : String) (t : CliTask)
    (ht : env.getTask id = .ok t) :
    (truthyStr t.parent_id = false →
      unset_task_parents env [id] =
        ([.getTaskCall id],
         some ⟨"ValueError", "Task " ++ id ++ " has no parent"⟩)) ∧
    (∀ pid, t.parent_id = some pid → pid ≠ "" →
      unset_task_parents env [id] =
        ([.getTaskCall id, .unsetParentCall id t.project_id pid], none)) := by
  constructor
  · intro hnop
    simp [unset_task_parents, ht, hnop]
  · intro pid hp hne
    have hpe : (pid == "") = false := by simp [hne]
    simp [unset_task_parents, ht, hp, truthyStr, hpe]

/-- Witness for C6 (amended): a parentless task makes the `ValueError`
branch fire with no unset call; a task with parent `pp` gets the upstream
unset call. -/
theorem C6_amended_unset_parent_witness :
    (truthyStr (none : Option String) = false ∧
      unset_task_parents
        { getTask := fun id => .ok { id := id, project_id := "p1" },
          createResp := fun _ => [] } ["t1"] =
        ([.getTaskCall "t1"],
         some ⟨"ValueError", "Task t1 has no parent"⟩)) ∧
    unset_task_parents
      { getTask := fun id => .ok
          { id := id, project_id := "p1", parent_id := some "pp" },
        createResp := fun _ => [] } ["t2"] =
      ([.getTaskCall "t2", .unsetParentCall "t2" "p1" "pp"], none) := by
  constructor
  · exact ⟨by decide,
      (C6_amended_unset_parent
        { getTask := fun id => .ok { id := id, project_id := "p1" },
          createResp := fun _ => [] } "t1"
        { id := "t1", project_id := "p1" } rfl).1 (by decide)⟩
  · exact (C6_amended_unset_parent
      { getTask := fun id => .ok
          { id := id, project_id := "p1", parent_id := some "pp" },
        createResp := fun _ => [] } "t2"
      { id := "t2", project_id := "p1", parent_id := some "pp" } rfl).2
      "pp" rfl (by decide)

/-! ## Claim C8 -/

theorem listContains_iff (sub l : List Char) :
    listContains sub l = true ↔ sub <:+: l := by
  induction l with
  | nil =>
    simp [listContains, List.isEmpty_iff]
  | cons c rest ih =>
    rw [listContains, Bool.or_eq_true, listHasPre,
      List.isPrefixOf_iff_prefix, ih, List.infix_cons_iff]

theorem strContains_suffix_part (a b : String) :
    strContains (a ++ b) b = true := by
  rw [strContains, listContains_iff, data_append]
  exact (List.suffix_append _ _).isInfix

theorem error_message_some (x h : String) (hh : (h == "") = false) :
    error_message x (some h) =
      "**Error**: " ++ x ++ "\n\n*Suggestion*: " ++ h := by
  simp [error_message, hh]

theorem hexDigitChar_ne_newline (n : Nat) : hexDigitChar n ≠ '\n' := by
  unfold hexDigitChar
  split <;> decide

theorem newline_not_mem_uEscape (n : Nat) : '\n' ∉ uEscape n := by
  simp only [uEscape, List.mem_cons, List.not_mem_nil, or_false]
  push_neg
  refine ⟨by decide, by decide, ?_, ?_, ?_, ?_⟩ <;>
    exact fun hc => hexDigitChar_ne_newline _ hc.symm

theorem newline_not_mem_escape (c : Char) : '\n' ∉ pyJsonEscChar c := by
  unfold pyJsonEscChar
  split
  · decide
  · split
    · decide
    · split
      · decide
      · split
        · decide
        · split
          · decide
          · split
            · decide
            · split
              · decide
              · split
                case isTrue =>
                  split
                  · exact newline_not_mem_uEscape _
                  · intro hmem
                    rcases List.mem_append.mp hmem with hm | hm
                    · exact newline_not_mem_uEscape _ hm
                    · exact newline_not_mem_uEscape _ hm
                case isFalse h1 h2 h3 h4 h5 h6 h7 h8 =>
                  intro hmem
                  rcases List.mem_cons.mp hmem with hm | hm
                  · rw [hm] at h3
                    simp at h3
                  · exact List.not_mem_nil _ hm

theorem newline_not_mem_jsonStr (msg : String) :
    '\n' ∉ (pyJsonStr msg).data := by
  simp only [pyJsonStr]
  intro hmem
  rcases List.mem_cons.mp hmem with hm | hm
  · cases hm
  · rcases List.mem_append.mp hm with hm2 | hm2
    · rcases List.mem_flatMap.mp hm2 with ⟨a, _, ha⟩
      exact newline_not_mem_escape a ha
    · rcases List.mem_cons.mp hm2 with hm3 | hm3
      · cases hm3
      · exact List.not_mem_nil _ hm3

theorem cli_error_line_single (msg : String) :
    '\n' ∉ (cli_error_line msg).data := by
  rw [cli_error_line, data_append, data_append]
  intro hmem
  rcases List.mem_append.mp hmem with hm | hm
  · rcases List.mem_append.mp hm with hm2 | hm2
    · revert hm2
      decide
    · exact newline_not_mem_jsonStr msg hm2
  · revert hm
    decide

theorem strContains_of_infix {s sub : String} (h : sub.data <:+: s.data) :
    strContains s sub = true :=
  (listContains_iff _ _).mpr h

/-- C8: the error boundary.  Every exception raised inside a tool-call
handler is turned into an error string by `handle_error` rather than
propagating; the string carries the error category and an actionable hint:
check-credentials when the exception type name contains `Authentication`,
verify-the-id-exists when it (containing no earlier keyword) contains
`NotFound`, check-parameters when it contains `Validation` (the keywords
are tested in that order).  Every exception escaping a CLI command makes
`main` print the single-line `{"error": msg}` JSON object and exit with
the non-zero code 1. -/
theorem C8_error_boundary (e : PyErr) :
    runToolHandler (.error e) = handle_error e ∧
    (strContains e.typeName "Authentication" = true →
      handle_error e = "**Error**: " ++ "Authentication failed" ++
        "\n\n*Suggestion*: " ++ "Check TICKTICK_* environment variables." ∧
      strContains (handle_error e) "Authentication failed" = true ∧
      strContains (handle_error e)
        "Check TICKTICK_* environment variables." = true) ∧
    (strContains e.typeName "Authentication" = false →
      strContains e.typeName "NotFound" = true →
      handle_error e = "**Error**: " ++ ("Not found: " ++ e.msg) ++
        "\n\n*Suggestion*: " ++ "Verify the ID exists." ∧
      strContains (handle_error e) "Not found: " = true ∧
      strContains (handle_error e) "Verify the ID exists." = true) ∧
    (strContains e.typeName "Authentication" = false →
      strContains e.typeName "NotFound" = false →
      strContains e.typeName "Validation" = true →
      handle_error e = "**Error**: " ++ ("Invalid input: " ++ e.msg) ++
        "\n\n*Suggestion*: " ++ "Check parameters." ∧
      strContains (handle_error e) "Invalid input: " = true ∧
      strContains (handle_error e) "Check parameters." = true) ∧
    (cli_main_result (.error e) = (some (cli_error_line e.msg), 1) ∧
      (1 : Int) ≠ 0 ∧ '\n' ∉ (cli_error_line e.msg).data) := by
  refine ⟨rfl, ?_, ?_, ?_, ⟨rfl, by decide, cli_error_line_single e.msg⟩⟩
  · intro hauth
    have heq : handle_error e = "**Error**: " ++ "Authentication failed" ++
        "\n\n*Suggestion*: " ++ "Check TICKTICK_* environment variables." := by
      rw [handle_error, if_pos hauth]
      exact error_message_some _ _ (by decide)
    refine ⟨heq, ?_, ?_⟩
    · rw [heq]
      apply strContains_of_infix
      exact ⟨"**Error**: ".data,
        ("\n\n*Suggestion*: " ++ "Check TICKTICK_* environment variables.").data,
        by simp [data_append, List.append_assoc]⟩
    · rw [heq]
      exact strContains_suffix_part _ _
  · intro hnauth hnf
    have heq : handle_error e = "**Error**: " ++ ("Not found: " ++ e.msg) ++
        "\n\n*Suggestion*: " ++ "Verify the ID exists." := by
      rw [handle_error, if_neg (by simp [hnauth]), if_pos hnf]
      exact error_message_some _ _ (by decide)
    refine ⟨heq, ?_, ?_⟩
    · rw [heq]
      apply strContains_of_infix
      exact ⟨"**Error**: ".data,
        (e.msg ++ ("\n\n*Suggestion*: " ++ "Verify the ID exists.")).data,
        by simp [data_append, List.append_assoc]⟩
    · rw [heq]
      exact strContains_suffix_part _ _
  · intro hnauth hnnf hval
    have heq : handle_error e = "**Error**: " ++ ("Invalid input: " ++ e.msg) ++
        "\n\n*Suggestion*: " ++ "Check parameters." := by
      rw [handle_error, if_neg (by simp [hnauth]), if_neg (by simp [hnnf]),
        if_pos hval]
      exact error_message_some _ _ (by decide)
    refine ⟨heq, ?_, ?_⟩
    · rw [heq]
      apply strContains_of_infix
      exact ⟨"**Error**: ".data,
        (e.msg ++ ("\n\n*Suggestion*: " ++ "Check parameters.")).data,
        by simp [data_append, List.append_assoc]⟩
    · rw [heq]
      exact strContains_suffix_part _ _

/-- Witness for C8: the package's `TickTickNotFoundError` takes the
not-found branch with its verify-the-id hint, and a failing CLI command
prints the single-line JSON error with exit code 1. -/
theorem C8_error_boundary_witness :
    strContains "TickTickNotFoundError" "Authentication" = false ∧
    strContains "TickTickNotFoundError" "NotFound" = true ∧
    handle_error ⟨"TickTickNotFoundError", "task xyz"⟩ =
      "**Error**: " ++ ("Not found: " ++ "task xyz") ++
        "\n\n*Suggestion*: " ++ "Verify the ID exists." ∧
    cli_main_result (.error ⟨"TickTickNotFoundError", "task xyz"⟩) =
      (some (cli_error_line "task xyz"), 1) := by
  refine ⟨by decide, by decide, ?_, ?_⟩
  · exact ((C8_error_boundary ⟨"TickTickNotFoundError", "task xyz"⟩).2.2.1
      (by decide) (by decide)).1
  · exact (C8_error_boundary ⟨"TickTickNotFoundError", "task xyz"⟩).2.2.2.2.1

/-! ## Claim C9 -/

theorem truthyList_iff {α : Type} (o : Option (List α)) :
    truthyList o = true ↔ ∃ l, o = some l ∧ l ≠ [] := by
  cases o <;> simp [truthyList]

theorem truthyStr_iff (o : Option String) :
    truthyStr o = true ↔ ∃ s, o = some s ∧ s ≠ "" := by
  cases o <;> simp [truthyStr]

/-- C9: the implicit invariant established by `TasksInput` validation.
Every accepted value satisfies the action-specific presence requirements:
`create` has a non-empty `tasks` list; `get` has a `task_id` matching the
24-character lower-hex pattern; `update`, `complete`, `delete`, `pin`,
`set_parents` and `unparent` have a non-empty `tasks` list; `move` has a
non-empty `moves` list; `search` has a non-empty `query`. -/
theorem C9_input_invariant (raw v : TasksInputRaw)
    (h : validateTasksInput raw = some v) :
    (v.action = "create" → ∃ l, v.tasks = some l ∧ l ≠ []) ∧
    (v.action = "get" → ∃ s, v.task_id = some s ∧ s.length = 24 ∧
      ∀ c ∈ s.data, isLowerHexDigit c = true) ∧
    ((v.action = "update" ∨ v.action = "complete" ∨ v.action = "delete" ∨
      v.action = "pin" ∨ v.action = "set_parents" ∨ v.action = "unparent") →
      ∃ l, v.tasks = some l ∧ l ≠ []) ∧
    (v.action = "move" → ∃ l, v.moves = some l ∧ l ≠ []) ∧
    (v.action = "search" → ∃ q, v.query = some q ∧ q ≠ "") := by
  have hv : tasksFieldChecks v = true ∧ tasksActionCheck v = true := by
    simp only [validateTasksInput] at h
    split at h
    case isTrue hc =>
      cases h
      simp only [Bool.and_eq_true] at hc
      exact hc
    case isFalse => cases h
  obtain ⟨hfc, hac⟩ := hv
  refine ⟨?_, ?_, ?_, ?_, ?_⟩
  · intro ha
    have hx := hac
    rw [tasksActionCheck] at hx
    simp [ha] at hx
    exact (truthyList_iff _).mp hx
  · intro ha
    have hx := hac
    rw [tasksActionCheck] at hx
    simp [ha] at hx
    obtain ⟨s, hs, _⟩ := (truthyStr_iff _).mp hx
    have hfc2 := hfc
    rw [tasksFieldChecks] at hfc2
    simp only [Bool.and_eq_true, and_assoc] at hfc2
    obtain ⟨_, _, hid, _⟩ := hfc2
    rw [hs] at hid
    simp only [optCheck, Option.elim] at hid
    simp only [isHex24, Bool.and_eq_true, List.all_eq_true, beq_iff_eq] at hid
    exact ⟨s, hs, hid.1, hid.2⟩
  · intro hor
    have hx := hac
    rw [tasksActionCheck] at hx
    rcases hor with ha | ha | ha | ha | ha | ha <;>
      simp [ha] at hx <;>
      exact (truthyList_iff _).mp hx
  · intro ha
    have hx := hac
    rw [tasksActionCheck] at hx
    simp [ha] at hx
    exact (truthyList_iff _).mp hx
  · intro ha
    have hx := hac
    rw [tasksActionCheck] at hx
    simp [ha] at hx
    obtain ⟨q, hq, hne⟩ := (truthyStr_iff _).mp hx
    exact ⟨q, hq, hne⟩

/-- Witness for C9: a concrete `get` input with a 24-character hex id
passes validation and exposes the invariant. -/
theorem C9_input_invariant_witness :
    ∃ s, (some "0123456789abcdef01234567" : Option String) = some s ∧
      s.length = 24 ∧ ∀ c ∈ s.data, isLowerHexDigit c = true :=
  (C9_input_invariant
    { action := "get", task_id := some "0123456789abcdef01234567" }
    { action := "get", task_id := some "0123456789abcdef01234567" }
    rfl).2.1 rfl

/-! ## Claim C10 -/

theorem createLoop_ok (env : ApiEnv) (pid : String) (titles : List String)
    (h : ∀ ti ∈ titles, ∀ tid, (env.createResp ti).head? = some tid →
      ∃ t, env.getTask tid = .ok t) :
    createLoop env pid titles =
      (titles.flatMap (fun ti => V2Call.createTaskCall ti pid ::
        ((env.createResp ti).head?.elim []
          (fun tid => [V2Call.getTaskCall tid]))),
       titles.filterMap (fun ti => (env.createResp ti).head?.bind
         (fun tid => (env.getTask tid).toOption)),
       none) := by
  induction titles with
  | nil => rfl
  | cons ti rest ih =>
    have iht := ih (fun x hx tid htid => h x (List.mem_cons_of_mem _ hx) tid htid)
    cases hr : (env.createResp ti).head? with
    | none =>
      simp [createLoop, hr, iht]
    | some tid =>
      obtain ⟨t, ht⟩ := h ti (List.mem_cons_self _ _) tid hr
      simp [createLoop, hr, ht, iht, Except.toOption]

theorem filterMap_length_lt {α β : Type} (f : α → Option β) (l : List α)
    (h : ∃ a ∈ l, f a = none) : (l.filterMap f).length < l.length := by
  induction l with
  | nil => simp at h
  | cons a rest ih =>
    rcases h with ⟨b, hb, hfb⟩
    rcases List.mem_cons.mp hb with rfl | hmem
    · rw [List.filterMap_cons, hfb]
      have := List.length_filterMap_le f rest
      simp only [List.length_cons]
      omega
    · cases hf : f a with
      | none =>
        rw [List.filterMap_cons, hf]
        have := List.length_filterMap_le f rest
        simp only [List.length_cons]
        omega
      | some c =>
        rw [List.filterMap_cons, hf]
        have := ih ⟨b, hmem, hfb⟩
        simp only [List.length_cons, List.length_cons]
        omega

theorem createCalls_proj (env : ApiEnv) (pid : String) (titles : List String) :
    (titles.flatMap (fun ti => V2Call.createTaskCall ti pid ::
      ((env.createResp ti).head?.elim []
        (fun tid => [V2Call.getTaskCall tid])))).filterMap
      (fun c => match c with
        | V2Call.createTaskCall x p => some (x, p)
        | _ => none) = titles.map (fun ti => (ti, pid)) := by
  induction titles with
  | nil => rfl
  | cons ti rest ih =>
    cases hr : (env.createResp ti).head? <;>
      simp [hr, ih]

/-- C10: `CachedAPI.create_tasks` issues one upstream create call per title
sequentially and in input order (with the resolved project id), returns
exactly the follow-up-fetched tasks of the titles whose create response has
a first `id2etag` key — in input order — and silently omits, without
raising, every title whose response has no id, so the result is at most as
long as the input and strictly shorter whenever some response is
id-less. -/
theorem C10_batch_create (env : ApiEnv) (titles : List String)
    (project_id : Option String) (pid : String)
    (hpid : pid = if truthyStr project_id then project_id.getD ""
      else env.inbox_id)
    (h : ∀ ti ∈ titles, ∀ tid, (env.createResp ti).head? = some tid →
      ∃ t, env.getTask tid = .ok t) :
    ∃ rs : List CliTask,
      create_tasks env titles project_id =
        (titles.flatMap (fun ti => V2Call.createTaskCall ti pid ::
          ((env.createResp ti).head?.elim []
            (fun tid => [V2Call.getTaskCall tid]))), rs, none) ∧
      rs = titles.filterMap (fun ti => (env.createResp ti).head?.bind
        (fun tid => (env.getTask tid).toOption)) ∧
      (titles.flatMap (fun ti => V2Call.createTaskCall ti pid ::
        ((env.createResp ti).head?.elim []
          (fun tid => [V2Call.getTaskCall tid])))).filterMap
        (fun c => match c with
          | V2Call.createTaskCall x p => some (x, p)
          | _ => none) = titles.map (fun ti => (ti, pid)) ∧
      rs.length ≤ titles.length ∧
      ((∃ ti ∈ titles, (env.createResp ti).head? = none) →
        rs.length < titles.length) := by
  subst hpid
  refine ⟨titles.filterMap (fun ti => (env.createResp ti).head?.bind
    (fun tid => (env.getTask tid).toOption)), ?_, rfl, createCalls_proj env _ titles, ?_, ?_⟩
  · rw [create_tasks]
    exact createLoop_ok env _ titles h
  · exact List.length_filterMap_le _ _
  · intro hex
    apply filterMap_length_lt
    rcases hex with ⟨ti, hmem, hnone⟩
    exact ⟨ti, hmem, by rw [hnone]; rfl⟩

/-- Witness for C10: two titles where the second's create response carries
no id yield one create call per title but a single returned task. -/
theorem C10_batch_create_witness :
    ∃ rs : List CliTask,
      create_tasks
        { getTask := fun tid => .ok { id := tid, project_id := "p1" },
          createResp := fun ti => if ti == "x" then ["idx"] else [],
          inbox_id := "inbox0", nowV2 := "" }
        ["x", "y"] none =
        ((["x", "y"].flatMap (fun ti => V2Call.createTaskCall ti "inbox0" ::
          (((if ti == "x" then ["idx"] else []).head?).elim []
            (fun tid => [V2Call.getTaskCall tid]))), rs, none)) ∧
      rs = ["x", "y"].filterMap (fun ti =>
        ((if ti == "x" then ["idx"] else []).head?).bind
          (fun tid => (Except.ok { id := tid, project_id := "p1" } :
            Except PyErr CliTask).toOption)) ∧
      (["x", "y"].flatMap (fun ti => V2Call.createTaskCall ti "inbox0" ::
        (((if ti == "x" then ["idx"] else []).head?).elim []
          (fun tid => [V2Call.getTaskCall tid])))).filterMap
        (fun c => match c with
          | V2Call.createTaskCall x p => some (x, p)
          | _ => none) = ["x", "y"].map (fun ti => (ti, "inbox0")) ∧
      rs.length ≤ (["x", "y"] : List String).length ∧
      ((∃ ti ∈ (["x", "y"] : List String),
          ((if ti == "x" then ["idx"] else []).head? : Option String) = none) →
        rs.length < (["x", "y"] : List String).length) :=
  C10_batch_create
    { getTask := fun tid => .ok { id := tid, project_id := "p1" },
      createResp := fun ti => if ti == "x" then ["idx"] else [],
      inbox_id := "inbox0", nowV2 := "" }
    ["x", "y"] none "inbox0" rfl (fun _ _ _ _ => ⟨_, rfl⟩)

end TickTick
